import Mathlib

/-!
Verification of the credential cache (TokenManager) and the rate-limit retry
behaviour of the TickTick MCP server.

The definitions below are a shallow embedding of:
  - src/auth/tokenManager.ts : class TokenManager (NodeCache-backed token store,
    single-flight refresh via the shared refreshPromise field);
  - src/utils/errors.ts : the TickTickError hierarchy (in particular
    TokenRefreshError, code "TOKEN_REFRESH_ERROR");
  - src/api/client.ts : the axios response interceptor that waits and
    re-dispatches a request on HTTP 429.

Timestamps are milliseconds since epoch, as in Date.now(). NodeCache stores a
value with an absolute expiry t = now + ttl * 1000 and treats the value as
present while now ≤ t (node-cache evicts when t < Date.now()).
-/

set_option maxRecDepth 8192

namespace TickTickMCP

/-- Entry of the NodeCache used by TokenManager: a string value together with
its absolute expiry timestamp in milliseconds. -/
structure CacheEntry where
  value : String
  expiresAt : Nat
deriving Repr, DecidableEq

/-- State of the NodeCache as used by TokenManager: the two keys
"access_token" and "refresh_token". -/
structure TMCache where
  access : Option CacheEntry
  refresh : Option CacheEntry
deriving Repr, DecidableEq

/-- Lookup in the NodeCache at time `now`: the value is returned while
`now ≤ expiresAt`, and the entry is treated as absent afterwards. -/
def cacheGet (entry : Option CacheEntry) (now : Nat) : Option String :=
  match entry with
  | none => none
  | some e => if now ≤ e.expiresAt then some e.value else none

/-- TokenResponse from src/api/types.ts: fields of the upstream OAuth token
response. Optional fields are Option; a JS `undefined` is `none`. -/
structure TokenResponse where
  access_token : String
  token_type : String
  expires_in : Option Nat
  refresh_token : Option String
  scope : Option String
deriving Repr, DecidableEq

/-- Embeds `tokens.expires_in || 3600` from setTokens (tokenManager.ts line
188): a missing field and the falsy value 0 both yield the 3600 default. -/
def effectiveExpiresIn (tk : TokenResponse) : Nat :=
  match tk.expires_in with
  | none => 3600
  | some n => if n = 0 then 3600 else n

/-- Embeds `Math.max(expiresIn - 300, 60)` from setTokens (tokenManager.ts line
189). Nat subtraction truncates at 0 where the JS value would be negative;
since the other branch of the max is 60 > 0 the results coincide. -/
def tokenTtl (tk : TokenResponse) : Nat :=
  max (effectiveExpiresIn tk - 300) 60

/-- TTL used for a stored refresh token: 30 days, tokenManager.ts line 195. -/
def refreshTokenTtl : Nat := 30 * 24 * 60 * 60

/-- TokenManager.setTokens (tokenManager.ts lines 187-199): always stores the
access token with ttl `tokenTtl`; stores the refresh token only when
`tokens.refresh_token` is truthy in JS, i.e. present and non-empty. -/
def setTokens (c : TMCache) (now : Nat) (tk : TokenResponse) : TMCache :=
  let c1 : TMCache := { c with access := some ⟨tk.access_token, now + tokenTtl tk * 1000⟩ }
  match tk.refresh_token with
  | some r => if r = "" then c1 else { c1 with refresh := some ⟨r, now + refreshTokenTtl * 1000⟩ }
  | none => c1

/-- TokenManager.getAccessToken: NodeCache lookup of the "access_token" key. -/
def getAccessToken (c : TMCache) (now : Nat) : Option String :=
  cacheGet c.access now

/-- TokenManager.getRefreshToken: NodeCache lookup of the "refresh_token" key. -/
def getRefreshToken (c : TMCache) (now : Nat) : Option String :=
  cacheGet c.refresh now

/-- TokenManager.initializeFromEnv (tokenManager.ts lines 301-315): the
environment values are JS strings (or undefined); tokens are stored only when
the access token is truthy (present and non-empty), with a default
`expires_in` of 3600 and token_type "Bearer". -/
def initializeFromEnv (c : TMCache) (now : Nat)
    (envAccessToken envRefreshToken : Option String) : TMCache :=
  match envAccessToken with
  | some a =>
      if a = "" then c
      else setTokens c now ⟨a, "Bearer", some 3600, envRefreshToken, none⟩
  | none => c

/-- Error thrown by the upstream refresh call (refreshAccessToken in oauth.ts
wraps failures through handleAxiosError into the TickTickError hierarchy):
message, code and optional HTTP status. -/
structure UpstreamError where
  message : String
  code : String
  statusCode : Option Nat
deriving Repr, DecidableEq

/-- Error observed by a caller of getValidAccessToken. `tokenRefresh msg d`
is `new TokenRefreshError(msg, d)` (errors.ts lines 51-55, code
"TOKEN_REFRESH_ERROR", status 401); `upstream e` is the raw upstream error
rethrown unwrapped (tokenManager.ts line 243). -/
inductive CallerError where
  | tokenRefresh (message : String) (details : Option UpstreamError)
  | upstream (e : UpstreamError)
deriving Repr, DecidableEq

/-- Error code (the TickTickError `code` field) carried by a caller error:
every TokenRefreshError has code "TOKEN_REFRESH_ERROR". -/
def CallerError.codeOf : CallerError → String
  | .tokenRefresh _ _ => "TOKEN_REFRESH_ERROR"
  | .upstream e => e.code

/-- Message of the TokenRefreshError thrown when no refresh token is stored
(tokenManager.ts lines 250-252). -/
def noRefreshTokenMessage : String :=
  "No refresh token available. Please re-authenticate with TickTick."

/-- Message of the TokenRefreshError thrown when the upstream refresh call
fails (tokenManager.ts lines 266-269). -/
def refreshFailedMessage : String :=
  "Failed to refresh access token. Please re-authenticate with TickTick."

/-!
Rate-limit retry model, from the axios response interceptor in
src/api/client.ts lines 65-88. A request is dispatched; each element of the
input list is the upstream response to the next (re)dispatch of that request.
On a 429 response the interceptor waits `retry-after` seconds (header value,
or 60 when the header is absent) and re-issues the request through
`this.client.request(error.config)`, which passes through the same
interceptor again; there is no retry counter. Any other error status is
mapped through handleAxiosError and thrown.
-/

/-- One upstream HTTP response to a dispatched request. -/
inductive HttpResponse where
  | success (data : String)
  | rateLimited (retryAfterHeader : Option Nat)
  | httpError (status : Nat)
deriving Repr, DecidableEq

/-- Default retry-after interval in seconds when the header is absent
(client.ts line 73). -/
def defaultRetryAfter : Nat := 60

/-- Final outcome of a dispatched request. -/
inductive DispatchResult where
  | success (data : String)
  | apiError (status : Nat)
  | noResponse
deriving Repr, DecidableEq

/-- Response interceptor of client.ts lines 65-88, run against the listed
sequence of upstream responses. Returns the final outcome, the number of
times the request was dispatched upstream, and the list of waits (in
seconds) performed before each re-dispatch. -/
def dispatchWithRetry : List HttpResponse → DispatchResult × Nat × List Nat
  | [] => (.noResponse, 0, [])
  | .success d :: _ => (.success d, 1, [])
  | .httpError st :: _ => (.apiError st, 1, [])
  | .rateLimited h :: rest =>
      let w := h.getD defaultRetryAfter
      let r := dispatchWithRetry rest
      (r.1, r.2.1 + 1, w :: r.2.2)

/-!
Event-loop model of `TokenManager.getValidAccessToken` (tokenManager.ts lines
225-273) under N concurrent callers.

The method body has exactly two suspension points: the `await
this.refreshPromise` of a caller that found a refresh already in progress
(line 239) and the `await this.refreshPromise` of the caller that started the
refresh (line 260). Everything between suspension points runs atomically on
the single-threaded event loop, so a caller is in one of four states: not yet
started, suspended awaiting a refresh it initiated, suspended awaiting a
refresh some other caller initiated, or finished with a result.

Settlement of the refresh promise is modelled as one atomic step that resumes
every caller suspended on it. This reflects the JS microtask queue: the
continuations of all awaiters are enqueued at settlement time and run (in
FIFO order) before any task enqueued afterwards can re-enter
getValidAccessToken, and none of those continuations suspends again, so no
other step of this model can interleave between them.

Each refresh invocation is given the id `invocations` at the moment
`refreshAccessToken` is called (line 257); `invocations` counts calls made to
the upstream refresh endpoint and `settledCalls` counts those that have
completed, so `invocations - settledCalls` is the number of refresh calls in
flight.
-/

/-- Outcome of one upstream refresh call: the resolved TokenResponse, or the
error it rejects with. -/
inductive RefreshOutcome where
  | ok (tk : TokenResponse)
  | fail (e : UpstreamError)
deriving Repr, DecidableEq

/-- Result a caller of getValidAccessToken finishes with: the returned access
token, or the thrown error. -/
inductive CallResult where
  | ok (token : String)
  | error (e : CallerError)
deriving Repr, DecidableEq

/-- Control state of one caller of getValidAccessToken. The Nat is the id of
the refresh invocation whose promise the caller is awaiting. -/
inductive CallerState where
  | idle
  | waitingOwn (p : Nat)
  | waitingShared (p : Nat)
  | finished (r : CallResult)
deriving Repr, DecidableEq

/-- Global state of the event-loop model: the TokenManager cache, the current
time (constant over one burst of interleaved calls), the upstream invocation
and completion counters, the shared `refreshPromise` slot (holding the id of
the registered in-flight refresh, or none), and the state of each caller. -/
structure Sys (N : Nat) where
  cache : TMCache
  now : Nat
  invocations : Nat
  settledCalls : Nat
  refreshPromise : Option Nat
  callers : Fin N → CallerState

/-- Number of refresh calls currently in flight against the upstream
endpoint: calls started minus calls completed. -/
def inFlight {N : Nat} (s : Sys N) : Nat :=
  s.invocations - s.settledCalls

/-- Scheduler action: caller i enters getValidAccessToken and runs until its
first suspension point (or to completion), or the in-flight refresh call
settles with outcome r. -/
inductive Action (N : Nat) where
  | start (i : Fin N)
  | settle (r : RefreshOutcome)

/-- Continuation of getValidAccessToken past the cached-token check
(tokenManager.ts lines 236-257), run by caller i when no usable cached access
token was found: await a refresh already in progress (lines 236-245);
otherwise throw TokenRefreshError when no refresh token is stored (lines
248-253); otherwise call refreshAccessToken, record its promise in
`refreshPromise`, and await it (lines 256-260). The guard at line 249,
`if (!refreshToken)`, is modelled as an absence check: an empty-string
refresh token would also be falsy in JS, but setTokens (truthiness guard at
line 193) never stores one, so the two readings agree on every reachable
cache. -/
def startStepRefresh {N : Nat} (i : Fin N) (s : Sys N) : Sys N :=
  match s.refreshPromise with
  | some p => { s with callers := Function.update s.callers i (.waitingShared p) }
  | none =>
    match getRefreshToken s.cache s.now with
    | none =>
        { s with callers := Function.update s.callers i (.finished (.error (.tokenRefresh noRefreshTokenMessage none))) }
    | some _ =>
        { s with
          invocations := s.invocations + 1
          refreshPromise := some s.invocations
          callers := Function.update s.callers i (.waitingOwn s.invocations) }

/-- Synchronous prefix of getValidAccessToken (tokenManager.ts lines 229-257)
run by caller i. The check at line 231 is JS truthiness, `if (accessToken)`,
so a cached token is returned immediately only when it is present and
non-empty (lines 230-233); a missing or empty-string cached token falls
through to the refresh logic. A start for a caller that already ran is a
no-op. -/
def startStep {N : Nat} (i : Fin N) (s : Sys N) : Sys N :=
  if s.callers i ≠ CallerState.idle then s
  else
    match getAccessToken s.cache s.now with
    | some tok =>
        if tok = "" then startStepRefresh i s
        else { s with callers := Function.update s.callers i (.finished (.ok tok)) }
    | none => startStepRefresh i s

/-- Resumption of one caller suspended on refresh invocation p when it
settles with outcome r. The initiating caller (lines 259-272) returns
`tokens.access_token` on success and on failure throws a TokenRefreshError
wrapping the underlying error; an awaiting caller (lines 238-244) returns
`tokens.access_token` on success and on failure rethrows the underlying
error unchanged. -/
def resumeCaller (p : Nat) (r : RefreshOutcome) : CallerState → CallerState
  | .waitingOwn q =>
      if q = p then
        match r with
        | .ok tk => .finished (.ok tk.access_token)
        | .fail e => .finished (.error (.tokenRefresh refreshFailedMessage (some e)))
      else .waitingOwn q
  | .waitingShared q =>
      if q = p then
        match r with
        | .ok tk => .finished (.ok tk.access_token)
        | .fail e => .finished (.error (.upstream e))
      else .waitingShared q
  | cs => cs

/-- Settlement of the registered in-flight refresh with outcome r: on success
the initiating caller stores the tokens via setTokens (line 261) before
returning; on failure the cache is untouched. All suspended callers resume,
and `refreshPromise` is cleared — by the `finally` of the initiating caller
(lines 270-272) and, on failure, also by each awaiting caller (line 242) —
before any resumed caller propagates its result. When no refresh is
registered the settle action is a no-op. -/
def settleStep {N : Nat} (r : RefreshOutcome) (s : Sys N) : Sys N :=
  match s.refreshPromise with
  | none => s
  | some p =>
      { cache := match r with
          | .ok tk => setTokens s.cache s.now tk
          | .fail _ => s.cache
        now := s.now
        invocations := s.invocations
        settledCalls := s.settledCalls + 1
        refreshPromise := none
        callers := fun j => resumeCaller p r (s.callers j) }

/-- One scheduler step. -/
def step {N : Nat} (a : Action N) (s : Sys N) : Sys N :=
  match a with
  | .start i => startStep i s
  | .settle r => settleStep r s

/-- Run a schedule of actions from a state. -/
def run {N : Nat} (s : Sys N) (sched : List (Action N)) : Sys N :=
  sched.foldl (fun t a => step a t) s

/-- Initial state at process start (or after any quiescent period): a given
cache and time, no refresh ever started, no caller running. -/
def initSys (N : Nat) (c : TMCache) (now : Nat) : Sys N :=
  ⟨c, now, 0, 0, none, fun _ => .idle⟩

/-- Bookkeeping invariant of the single-flight mechanism: completed refresh
calls never exceed started ones, at most one call is unaccounted for, the
counters agree exactly when no refresh is registered, and a registered
refresh is the latest started call, still unsettled. -/
def Inv {N : Nat} (s : Sys N) : Prop :=
  s.settledCalls ≤ s.invocations ∧
  s.invocations ≤ s.settledCalls + 1 ∧
  (s.refreshPromise = none → s.invocations = s.settledCalls) ∧
  (∀ p, s.refreshPromise = some p → s.invocations = s.settledCalls + 1 ∧ p + 1 = s.invocations)

theorem inv_initSys (N : Nat) (c : TMCache) (now : Nat) : Inv (initSys N c now) := by
  refine ⟨Nat.le_refl 0, Nat.le_succ 0, fun _ => rfl, fun p hp => ?_⟩
  exact absurd hp (by simp [initSys])

theorem inv_startStepRefresh {N : Nat} (i : Fin N) (s : Sys N) (h : Inv s) :
    Inv (startStepRefresh i s) := by
  obtain ⟨h1, h2, h3, h4⟩ := h
  unfold startStepRefresh
  split
  · exact ⟨h1, h2, h3, h4⟩
  · next hrp =>
    split
    · exact ⟨h1, h2, h3, h4⟩
    · have he : s.invocations = s.settledCalls := h3 hrp
      refine ⟨?_, ?_, ?_, ?_⟩ <;> dsimp only
      · omega
      · omega
      · intro hx; exact absurd hx (by simp)
      · intro p hp
        simp only [Option.some.injEq] at hp
        omega

theorem inv_startStep {N : Nat} (i : Fin N) (s : Sys N) (h : Inv s) :
    Inv (startStep i s) := by
  unfold startStep
  split
  · exact h
  · split
    · split
      · exact inv_startStepRefresh i s h
      · exact h
    · exact inv_startStepRefresh i s h

theorem inv_settleStep {N : Nat} (r : RefreshOutcome) (s : Sys N) (h : Inv s) :
    Inv (settleStep r s) := by
  obtain ⟨h1, h2, h3, h4⟩ := h
  unfold settleStep
  split
  · exact ⟨h1, h2, h3, h4⟩
  · next p hp =>
    obtain ⟨he1, he2⟩ := h4 p hp
    refine ⟨?_, ?_, ?_, ?_⟩ <;> dsimp only
    · omega
    · omega
    · intro _; omega
    · intro q hq; exact absurd hq (by simp)

theorem inv_step {N : Nat} (a : Action N) (s : Sys N) (h : Inv s) : Inv (step a s) := by
  cases a with
  | start i => exact inv_startStep i s h
  | settle r => exact inv_settleStep r s h

theorem inv_run {N : Nat} (sched : List (Action N)) (s : Sys N) (h : Inv s) :
    Inv (run s sched) := by
  induction sched generalizing s with
  | nil => exact h
  | cons a t ih => exact ih (step a s) (inv_step a s h)

theorem inFlight_le_one_of_inv {N : Nat} (s : Sys N) (h : Inv s) : inFlight s ≤ 1 := by
  obtain ⟨h1, h2, _, _⟩ := h
  unfold inFlight
  omega

/-- State reached while N callers pile up on one refresh: exactly one refresh
call (with id 0) has been made and is registered, the cache and clock are
untouched, and every caller is either not started, the initiator awaiting
refresh 0, or a passenger awaiting refresh 0. -/
def StartPhase {N : Nat} (c : TMCache) (now : Nat) (s : Sys N) : Prop :=
  s.cache = c ∧ s.now = now ∧ s.invocations = 1 ∧ s.settledCalls = 0 ∧
  s.refreshPromise = some 0 ∧
  ∀ i, s.callers i = CallerState.idle ∨ s.callers i = CallerState.waitingOwn 0 ∨
    s.callers i = CallerState.waitingShared 0

theorem startStep_noop {N : Nat} {s : Sys N} {i : Fin N}
    (h : s.callers i ≠ CallerState.idle) : startStep i s = s := by
  unfold startStep
  rw [if_pos h]

theorem startStep_hit {N : Nat} {s : Sys N} {i : Fin N} {tok : String}
    (h0 : s.callers i = CallerState.idle)
    (hA : getAccessToken s.cache s.now = some tok)
    (hne : tok ≠ "") :
    startStep i s =
      { s with callers := Function.update s.callers i (CallerState.finished (CallResult.ok tok)) } := by
  unfold startStep
  rw [if_neg (by simp [h0]), hA]
  dsimp only
  rw [if_neg hne]

theorem startStep_fallthrough {N : Nat} {s : Sys N} {i : Fin N}
    (h0 : s.callers i = CallerState.idle)
    (hA : getAccessToken s.cache s.now = none ∨ getAccessToken s.cache s.now = some "") :
    startStep i s = startStepRefresh i s := by
  unfold startStep
  rcases hA with hA | hA
  · rw [if_neg (by simp [h0]), hA]
  · rw [if_neg (by simp [h0]), hA]
    dsimp only
    rw [if_pos rfl]

theorem startStepRefresh_shared {N : Nat} {s : Sys N} {i : Fin N} {p : Nat}
    (hr : s.refreshPromise = some p) :
    startStepRefresh i s =
      { s with callers := Function.update s.callers i (CallerState.waitingShared p) } := by
  unfold startStepRefresh
  rw [hr]

theorem startStepRefresh_noRefresh {N : Nat} {s : Sys N} {i : Fin N}
    (hr : s.refreshPromise = none)
    (hRT : getRefreshToken s.cache s.now = none) :
    startStepRefresh i s =
      { s with callers := Function.update s.callers i (CallerState.finished (CallResult.error (CallerError.tokenRefresh noRefreshTokenMessage none))) } := by
  unfold startStepRefresh
  rw [hr, hRT]

theorem startStepRefresh_initiate {N : Nat} {s : Sys N} {i : Fin N} {rt : String}
    (hr : s.refreshPromise = none)
    (hRT : getRefreshToken s.cache s.now = some rt) :
    startStepRefresh i s =
      { s with
        invocations := s.invocations + 1
        refreshPromise := some s.invocations
        callers := Function.update s.callers i (CallerState.waitingOwn s.invocations) } := by
  unfold startStepRefresh
  rw [hr, hRT]

theorem startStep_shared {N : Nat} {s : Sys N} {i : Fin N} {p : Nat}
    (h0 : s.callers i = CallerState.idle)
    (hA : getAccessToken s.cache s.now = none)
    (hr : s.refreshPromise = some p) :
    startStep i s =
      { s with callers := Function.update s.callers i (CallerState.waitingShared p) } :=
  (startStep_fallthrough h0 (Or.inl hA)).trans (startStepRefresh_shared hr)

theorem startStep_noRefresh {N : Nat} {s : Sys N} {i : Fin N}
    (h0 : s.callers i = CallerState.idle)
    (hA : getAccessToken s.cache s.now = none)
    (hr : s.refreshPromise = none)
    (hRT : getRefreshToken s.cache s.now = none) :
    startStep i s =
      { s with callers := Function.update s.callers i (CallerState.finished (CallResult.error (CallerError.tokenRefresh noRefreshTokenMessage none))) } :=
  (startStep_fallthrough h0 (Or.inl hA)).trans (startStepRefresh_noRefresh hr hRT)

theorem startStep_initiate {N : Nat} {s : Sys N} {i : Fin N} {rt : String}
    (h0 : s.callers i = CallerState.idle)
    (hA : getAccessToken s.cache s.now = none)
    (hr : s.refreshPromise = none)
    (hRT : getRefreshToken s.cache s.now = some rt) :
    startStep i s =
      { s with
        invocations := s.invocations + 1
        refreshPromise := some s.invocations
        callers := Function.update s.callers i (CallerState.waitingOwn s.invocations) } :=
  (startStep_fallthrough h0 (Or.inl hA)).trans (startStepRefresh_initiate hr hRT)

theorem startPhase_first {N : Nat} (c : TMCache) (now : Nat) (rt : String) (i : Fin N)
    (hA : getAccessToken c now = none) (hR : getRefreshToken c now = some rt) :
    StartPhase c now (startStep i (initSys N c now)) := by
  rw [startStep_initiate (s := initSys N c now) (i := i) rfl hA rfl hR]
  refine ⟨rfl, rfl, rfl, rfl, rfl, fun j => ?_⟩
  dsimp only [initSys]
  by_cases hj : j = i
  · subst hj
    rw [Function.update_same]
    exact Or.inr (Or.inl rfl)
  · rw [Function.update_noteq hj]
    exact Or.inl rfl

theorem startPhase_startStep {N : Nat} {c : TMCache} {now : Nat}
    (hA : getAccessToken c now = none) (s : Sys N) (hs : StartPhase c now s) (i : Fin N) :
    StartPhase c now (startStep i s) := by
  obtain ⟨hc, hn, hi, hs0, hr, hcal⟩ := hs
  by_cases h0 : s.callers i = CallerState.idle
  · have hA2 : getAccessToken s.cache s.now = none := by rw [hc, hn]; exact hA
    rw [startStep_shared h0 hA2 hr]
    refine ⟨hc, hn, hi, hs0, hr, fun j => ?_⟩
    dsimp only
    by_cases hj : j = i
    · subst hj
      rw [Function.update_same]
      exact Or.inr (Or.inr rfl)
    · rw [Function.update_noteq hj]
      exact hcal j
  · rw [startStep_noop h0]
    exact ⟨hc, hn, hi, hs0, hr, hcal⟩

theorem startPhase_run_starts {N : Nat} {c : TMCache} {now : Nat}
    (hA : getAccessToken c now = none) (starts : List (Fin N)) (s : Sys N)
    (hs : StartPhase c now s) :
    StartPhase c now (run s (starts.map Action.start)) := by
  induction starts generalizing s with
  | nil => exact hs
  | cons j t ih => exact ih (startStep j s) (startPhase_startStep hA s hs j)

theorem startPhase_main {N : Nat} (c : TMCache) (now : Nat) (rt : String)
    (hA : getAccessToken c now = none) (hR : getRefreshToken c now = some rt)
    (starts : List (Fin N)) (hne : starts ≠ []) :
    StartPhase c now (run (initSys N c now) (starts.map Action.start)) := by
  cases starts with
  | nil => exact absurd rfl hne
  | cons j t =>
      exact startPhase_run_starts hA t (startStep j (initSys N c now))
        (startPhase_first c now rt j hA hR)

theorem settleStep_callers_of_registered {N : Nat} {s : Sys N} {p : Nat}
    (hr : s.refreshPromise = some p) (r : RefreshOutcome) (i : Fin N) :
    (settleStep r s).callers i = resumeCaller p r (s.callers i) := by
  unfold settleStep
  rw [hr]

theorem startStepRefresh_self_not_idle {N : Nat} (i : Fin N) (s : Sys N) :
    (startStepRefresh i s).callers i ≠ CallerState.idle := by
  cases hr : s.refreshPromise with
  | some p =>
      rw [startStepRefresh_shared hr]
      simp [Function.update_same]
  | none =>
      cases hRT : getRefreshToken s.cache s.now with
      | none =>
          rw [startStepRefresh_noRefresh hr hRT]
          simp [Function.update_same]
      | some rt =>
          rw [startStepRefresh_initiate hr hRT]
          simp [Function.update_same]

theorem startStep_self_not_idle {N : Nat} (i : Fin N) (s : Sys N) :
    (startStep i s).callers i ≠ CallerState.idle := by
  by_cases h0 : s.callers i = CallerState.idle
  · cases hA : getAccessToken s.cache s.now with
    | some tok =>
        by_cases htok : tok = ""
        · subst htok
          rw [startStep_fallthrough h0 (Or.inr hA)]
          exact startStepRefresh_self_not_idle i s
        · rw [startStep_hit h0 hA htok]
          simp [Function.update_same]
    | none =>
        rw [startStep_fallthrough h0 (Or.inl hA)]
        exact startStepRefresh_self_not_idle i s
  · rw [startStep_noop h0]
    exact h0

theorem resumeCaller_ne_idle (p : Nat) (r : RefreshOutcome) (cs : CallerState)
    (h : cs ≠ CallerState.idle) : resumeCaller p r cs ≠ CallerState.idle := by
  cases cs with
  | idle => exact h
  | waitingOwn q =>
      simp only [resumeCaller]
      split
      · cases r <;> simp
      · simp
  | waitingShared q =>
      simp only [resumeCaller]
      split
      · cases r <;> simp
      · simp
  | finished res => simp [resumeCaller]

theorem startStepRefresh_not_idle {N : Nat} (j : Fin N) (s : Sys N) (i : Fin N)
    (h : s.callers i ≠ CallerState.idle) :
    (startStepRefresh j s).callers i ≠ CallerState.idle := by
  have key : ∀ v : CallerState, v ≠ CallerState.idle →
      Function.update s.callers j v i ≠ CallerState.idle := by
    intro v hv
    by_cases hij : i = j
    · subst hij; rw [Function.update_same]; exact hv
    · rw [Function.update_noteq hij]; exact h
  cases hr : s.refreshPromise with
  | some p =>
      rw [startStepRefresh_shared hr]
      exact key _ (by simp)
  | none =>
      cases hRT : getRefreshToken s.cache s.now with
      | none =>
          rw [startStepRefresh_noRefresh hr hRT]
          exact key _ (by simp)
      | some rt =>
          rw [startStepRefresh_initiate hr hRT]
          exact key _ (by simp)

theorem step_preserves_not_idle {N : Nat} (a : Action N) (s : Sys N) (i : Fin N)
    (h : s.callers i ≠ CallerState.idle) : (step a s).callers i ≠ CallerState.idle := by
  cases a with
  | start j =>
      have key : ∀ v : CallerState, v ≠ CallerState.idle →
          Function.update s.callers j v i ≠ CallerState.idle := by
        intro v hv
        by_cases hij : i = j
        · subst hij; rw [Function.update_same]; exact hv
        · rw [Function.update_noteq hij]; exact h
      show (startStep j s).callers i ≠ CallerState.idle
      by_cases h0 : s.callers j = CallerState.idle
      · cases hA : getAccessToken s.cache s.now with
        | some tok =>
            by_cases htok : tok = ""
            · subst htok
              rw [startStep_fallthrough h0 (Or.inr hA)]
              exact startStepRefresh_not_idle j s i h
            · rw [startStep_hit h0 hA htok]
              exact key _ (by simp)
        | none =>
            rw [startStep_fallthrough h0 (Or.inl hA)]
            exact startStepRefresh_not_idle j s i h
      · rw [startStep_noop h0]
        exact h
  | settle r =>
      show (settleStep r s).callers i ≠ CallerState.idle
      cases hr : s.refreshPromise with
      | none =>
          rw [show settleStep r s = s by unfold settleStep; rw [hr]]
          exact h
      | some p =>
          rw [settleStep_callers_of_registered hr r i]
          exact resumeCaller_ne_idle p r (s.callers i) h

theorem run_preserves_not_idle {N : Nat} (l : List (Action N)) (s : Sys N) (i : Fin N)
    (h : s.callers i ≠ CallerState.idle) : (run s l).callers i ≠ CallerState.idle := by
  induction l generalizing s with
  | nil => exact h
  | cons a t ih => exact ih (step a s) (step_preserves_not_idle a s i h)

theorem run_starts_not_idle {N : Nat} (i : Fin N) :
    ∀ (starts : List (Fin N)) (s : Sys N), i ∈ starts →
      (run s (starts.map Action.start)).callers i ≠ CallerState.idle := by
  intro starts
  induction starts with
  | nil => intro s hi; cases hi
  | cons j t ih =>
      intro s hi
      rcases List.mem_cons.mp hi with hj | ht
      · subst hj
        exact run_preserves_not_idle (t.map Action.start) (startStep i s) i
          (startStep_self_not_idle i s)
      · exact ih (startStep j s) ht

theorem settleStep_clears {N : Nat} (r : RefreshOutcome) (s : Sys N) :
    (settleStep r s).refreshPromise = none := by
  unfold settleStep
  split
  · next h => exact h
  · rfl

theorem run_settles_noop {N : Nat} (settles : List RefreshOutcome) (s : Sys N)
    (h : s.refreshPromise = none) : run s (settles.map Action.settle) = s := by
  induction settles with
  | nil => rfl
  | cons r t ih =>
      show run (settleStep r s) (t.map Action.settle) = s
      rw [show settleStep r s = s by unfold settleStep; rw [h]]
      exact ih

theorem run_settles_cases {N : Nat} (s : Sys N) (settles : List RefreshOutcome) :
    run s (settles.map Action.settle) = s ∨
    ∃ r rest, settles = r :: rest ∧ run s (settles.map Action.settle) = settleStep r s := by
  cases settles with
  | nil => exact Or.inl rfl
  | cons r rest =>
      refine Or.inr ⟨r, rest, rfl, ?_⟩
      show run (settleStep r s) (rest.map Action.settle) = settleStep r s
      exact run_settles_noop rest (settleStep r s) (settleStep_clears r s)

theorem settleStep_invocations {N : Nat} (r : RefreshOutcome) (s : Sys N) :
    (settleStep r s).invocations = s.invocations := by
  unfold settleStep
  split
  · rfl
  · rfl

theorem resumeCaller_ok_values (tk : TokenResponse) (cs : CallerState)
    (h : cs = CallerState.idle ∨ cs = CallerState.waitingOwn 0 ∨ cs = CallerState.waitingShared 0) :
    resumeCaller 0 (RefreshOutcome.ok tk) cs = CallerState.idle ∨
    resumeCaller 0 (RefreshOutcome.ok tk) cs = CallerState.finished (CallResult.ok tk.access_token) := by
  rcases h with h | h | h <;> subst h <;> simp [resumeCaller]

theorem resumeCaller_fail_no_ok (e : UpstreamError) (cs : CallerState)
    (h : cs = CallerState.idle ∨ cs = CallerState.waitingOwn 0 ∨ cs = CallerState.waitingShared 0)
    (t : String) :
    resumeCaller 0 (RefreshOutcome.fail e) cs ≠ CallerState.finished (CallResult.ok t) := by
  rcases h with h | h | h <;> subst h <;> simp [resumeCaller]

theorem resumeCaller_ok_waiting (tk : TokenResponse) (cs : CallerState)
    (h : cs = CallerState.waitingOwn 0 ∨ cs = CallerState.waitingShared 0) :
    resumeCaller 0 (RefreshOutcome.ok tk) cs = CallerState.finished (CallResult.ok tk.access_token) := by
  rcases h with h | h <;> subst h <;> simp [resumeCaller]

/-- Demonstration cache holding only a refresh token "RT" with a far-future
expiry, as seen by a caller at time 0. -/
def demoCache : TMCache := { access := none, refresh := some ⟨"RT", 1000000000⟩ }

/-- Demonstration successful refresh response. -/
def demoTokens : TokenResponse := ⟨"A2", "Bearer", some 3600, none, none⟩

/-- Demonstration upstream failure: the network error produced by
handleAxiosError when no response arrives (errors.ts). -/
def demoError : UpstreamError :=
  ⟨"Network error occurred while connecting to TickTick API", "NETWORK_ERROR", none⟩

/-- C1: for every N ≥ 2 concurrent calls to getValidAccessToken made while no
access token is cached and a refresh token is present, the upstream refresh
endpoint is invoked exactly once and all N calls resolve to the same access
token; at every reachable state at most one refresh operation is in flight.
The first conjunct covers every schedule from a fresh state; the remaining
conjuncts cover every schedule in which all callers arrive before the refresh
settles (the concurrent-calls scenario of the claim): exactly one upstream
invocation, any two callers that resolve with a token resolve with the same
token, and on a successful refresh every caller resolves with that token. -/
theorem claim_C1_single_flight (N : Nat) (c : TMCache) (now : Nat) :
    (∀ sched : List (Action N), inFlight (run (initSys N c now) sched) ≤ 1) ∧
    (∀ (rt : String) (starts : List (Fin N)) (settles : List RefreshOutcome),
      2 ≤ N → starts ≠ [] →
      getAccessToken c now = none → getRefreshToken c now = some rt →
      (run (initSys N c now) (starts.map Action.start ++ settles.map Action.settle)).invocations = 1 ∧
      (∀ (i j : Fin N) (ti tj : String),
        (run (initSys N c now) (starts.map Action.start ++ settles.map Action.settle)).callers i =
          CallerState.finished (CallResult.ok ti) →
        (run (initSys N c now) (starts.map Action.start ++ settles.map Action.settle)).callers j =
          CallerState.finished (CallResult.ok tj) → ti = tj) ∧
      (∀ (tk : TokenResponse) (rest : List RefreshOutcome),
        settles = RefreshOutcome.ok tk :: rest →
        ∀ i ∈ starts,
          (run (initSys N c now) (starts.map Action.start ++ settles.map Action.settle)).callers i =
            CallerState.finished (CallResult.ok tk.access_token))) := by
  constructor
  · intro sched
    exact inFlight_le_one_of_inv _ (inv_run sched _ (inv_initSys N c now))
  · intro rt starts settles _hN hne hA hR
    have hmid : StartPhase c now (run (initSys N c now) (starts.map Action.start)) :=
      startPhase_main c now rt hA hR starts hne
    have hfull : run (initSys N c now) (starts.map Action.start ++ settles.map Action.settle) =
        run (run (initSys N c now) (starts.map Action.start)) (settles.map Action.settle) := by
      unfold run
      rw [List.foldl_append]
    obtain ⟨hc, hn, hi, hs0, hr, hcal⟩ := hmid
    refine ⟨?_, ?_, ?_⟩
    · rw [hfull]
      rcases run_settles_cases (run (initSys N c now) (starts.map Action.start)) settles with
        hcase | ⟨r, rest, hset, hcase⟩
      · rw [hcase]; exact hi
      · rw [hcase, settleStep_invocations]; exact hi
    · intro i j ti tj hti htj
      rw [hfull] at hti htj
      rcases run_settles_cases (run (initSys N c now) (starts.map Action.start)) settles with
        hcase | ⟨r, rest, hset, hcase⟩
      · rw [hcase] at hti
        rcases hcal i with h | h | h <;> rw [h] at hti <;> simp at hti
      · rw [hcase, settleStep_callers_of_registered hr r i] at hti
        rw [hcase, settleStep_callers_of_registered hr r j] at htj
        cases r with
        | ok tk =>
            rcases resumeCaller_ok_values tk _ (hcal i) with hP | hP
            · rw [hP] at hti; simp at hti
            · rw [hP] at hti
              rcases resumeCaller_ok_values tk _ (hcal j) with hQ | hQ
              · rw [hQ] at htj; simp at htj
              · rw [hQ] at htj
                simp only [CallerState.finished.injEq, CallResult.ok.injEq] at hti htj
                rw [← hti, ← htj]
        | fail e =>
            exact absurd hti (resumeCaller_fail_no_ok e _ (hcal i) ti)
    · intro tk rest hset i hi2
      subst hset
      rw [hfull]
      have hni : (run (initSys N c now) (starts.map Action.start)).callers i ≠ CallerState.idle :=
        run_starts_not_idle i starts (initSys N c now) hi2
      have hwi : (run (initSys N c now) (starts.map Action.start)).callers i =
          CallerState.waitingOwn 0 ∨
          (run (initSys N c now) (starts.map Action.start)).callers i =
          CallerState.waitingShared 0 := by
        rcases hcal i with h | h | h
        · exact absurd h hni
        · exact Or.inl h
        · exact Or.inr h
      have hrun : run (run (initSys N c now) (starts.map Action.start))
          ((RefreshOutcome.ok tk :: rest).map Action.settle) =
          settleStep (RefreshOutcome.ok tk) (run (initSys N c now) (starts.map Action.start)) := by
        show run (settleStep (RefreshOutcome.ok tk) (run (initSys N c now) (starts.map Action.start)))
          (rest.map Action.settle) = _
        exact run_settles_noop rest _ (settleStep_clears _ _)
      rw [hrun, settleStep_callers_of_registered hr _ i]
      exact resumeCaller_ok_waiting tk _ hwi

/-- C1 witness: two concurrent callers against a cache holding only a refresh
token, with one successful settlement, make exactly one upstream invocation. -/
theorem claim_C1_single_flight_witness :
    (run (initSys 2 demoCache 0)
      ([0, 1].map Action.start ++ [RefreshOutcome.ok demoTokens].map Action.settle)).invocations = 1 :=
  ((claim_C1_single_flight 2 demoCache 0).2 "RT" [0, 1] [RefreshOutcome.ok demoTokens]
    (by decide) (by decide) (by decide) (by decide)).1

theorem settleStep_now {N : Nat} (r : RefreshOutcome) (s : Sys N) :
    (settleStep r s).now = s.now := by
  unfold settleStep
  split
  · rfl
  · rfl

theorem settleStep_cache_fail {N : Nat} (e : UpstreamError) (s : Sys N) :
    (settleStep (RefreshOutcome.fail e) s).cache = s.cache := by
  unfold settleStep
  split
  · rfl
  · rfl

theorem settleStep_callers_idle {N : Nat} (r : RefreshOutcome) (s : Sys N) (i : Fin N)
    (h : s.callers i = CallerState.idle) :
    (settleStep r s).callers i = CallerState.idle := by
  cases hr : s.refreshPromise with
  | none =>
      rw [show settleStep r s = s by unfold settleStep; rw [hr]]
      exact h
  | some p =>
      rw [settleStep_callers_of_registered hr r i, h]
      rfl

/-- C2: when the upstream refresh call fails, the shared in-flight handle
(refreshPromise) is cleared in the same atomic resumption step that delivers
the error, so it is cleared before the error is propagated to any caller; the
failing settlement makes no upstream call of its own (the cache never retries
the failed refresh internally); and a subsequent call to getValidAccessToken,
finding the access token still absent and a refresh token present, starts a
new refresh invocation instead of awaiting the failed handle. -/
theorem claim_C2_failure_clears_handle (N : Nat) :
    (∀ (s : Sys N) (e : UpstreamError),
      (step (Action.settle (RefreshOutcome.fail e)) s).refreshPromise = none ∧
      (step (Action.settle (RefreshOutcome.fail e)) s).invocations = s.invocations) ∧
    (∀ (s : Sys N) (e : UpstreamError) (i : Fin N) (rt : String),
      s.callers i = CallerState.idle →
      getAccessToken s.cache s.now = none →
      getRefreshToken s.cache s.now = some rt →
      (step (Action.start i) (step (Action.settle (RefreshOutcome.fail e)) s)).invocations =
        s.invocations + 1 ∧
      (step (Action.start i) (step (Action.settle (RefreshOutcome.fail e)) s)).refreshPromise =
        some s.invocations ∧
      (step (Action.start i) (step (Action.settle (RefreshOutcome.fail e)) s)).callers i =
        CallerState.waitingOwn s.invocations) := by
  constructor
  · intro s e
    exact ⟨settleStep_clears (RefreshOutcome.fail e) s, settleStep_invocations _ s⟩
  · intro s e i rt h0 hA hRT
    have h0x : (settleStep (RefreshOutcome.fail e) s).callers i = CallerState.idle :=
      settleStep_callers_idle _ s i h0
    have hAx : getAccessToken (settleStep (RefreshOutcome.fail e) s).cache
        (settleStep (RefreshOutcome.fail e) s).now = none := by
      rw [settleStep_cache_fail, settleStep_now]; exact hA
    have hRTx : getRefreshToken (settleStep (RefreshOutcome.fail e) s).cache
        (settleStep (RefreshOutcome.fail e) s).now = some rt := by
      rw [settleStep_cache_fail, settleStep_now]; exact hRT
    have hrx : (settleStep (RefreshOutcome.fail e) s).refreshPromise = none :=
      settleStep_clears _ s
    have hinner : step (Action.settle (RefreshOutcome.fail e)) s = settleStep (RefreshOutcome.fail e) s := rfl
    rw [hinner]
    have houter : step (Action.start i) (settleStep (RefreshOutcome.fail e) s) =
        { settleStep (RefreshOutcome.fail e) s with
          invocations := (settleStep (RefreshOutcome.fail e) s).invocations + 1
          refreshPromise := some (settleStep (RefreshOutcome.fail e) s).invocations
          callers := Function.update (settleStep (RefreshOutcome.fail e) s).callers i
            (CallerState.waitingOwn (settleStep (RefreshOutcome.fail e) s).invocations) } :=
      startStep_initiate h0x hAx hrx hRTx
    rw [houter]
    dsimp only
    rw [settleStep_invocations]
    exact ⟨rfl, rfl, by rw [Function.update_same]⟩

/-- C2 witness: a single caller against a cache with only a refresh token,
after a failed refresh of a previous caller generation, starts a fresh
(second) upstream invocation. -/
theorem claim_C2_failure_clears_handle_witness :
    (step (Action.start 0)
      (step (Action.settle (RefreshOutcome.fail demoError)) (initSys 1 demoCache 0))).invocations =
      (initSys 1 demoCache 0).invocations + 1 :=
  ((claim_C2_failure_clears_handle 1).2 (initSys 1 demoCache 0) demoError 0 "RT"
    (by decide) (by decide) (by decide)).1

/-- C3 counterexample: with two callers converging on one failing refresh,
the awaiting caller (caller 1) receives the raw upstream error — code
"NETWORK_ERROR", not a TokenRefreshError — while the initiating caller
(caller 0) receives the TokenRefreshError wrapper, so the callers do not all
receive a TokenRefreshFailed error wrapping the underlying failure, and they
do not receive the same failure value. -/
theorem claim_C3_counterexample :
    (run (initSys 2 demoCache 0)
      [Action.start 0, Action.start 1, Action.settle (RefreshOutcome.fail demoError)]).callers 1 =
      CallerState.finished (CallResult.error (CallerError.upstream demoError)) ∧
    (run (initSys 2 demoCache 0)
      [Action.start 0, Action.start 1, Action.settle (RefreshOutcome.fail demoError)]).callers 0 =
      CallerState.finished (CallResult.error (CallerError.tokenRefresh refreshFailedMessage (some demoError))) ∧
    CallerError.codeOf (CallerError.upstream demoError) ≠ "TOKEN_REFRESH_ERROR" ∧
    CallerError.upstream demoError ≠ CallerError.tokenRefresh refreshFailedMessage (some demoError) := by
  refine ⟨?_, ?_, ?_, ?_⟩ <;> decide

/-- C3 (amended): when several callers converge on one refresh call and that
call fails, the caller that initiated the refresh receives a
TokenRefreshError wrapping the underlying transport/protocol error, while
every caller that awaited the shared handle receives the underlying error
itself, rethrown unwrapped; every converged caller is in one of these two
groups. -/
theorem claim_C3_amended (N : Nat) (c : TMCache) (now : Nat) (rt : String)
    (e : UpstreamError) (starts : List (Fin N)) (hne : starts ≠ [])
    (hA : getAccessToken c now = none) (hR : getRefreshToken c now = some rt) :
    (∀ i, (run (initSys N c now) (starts.map Action.start)).callers i = CallerState.waitingOwn 0 →
      (run (initSys N c now)
        (starts.map Action.start ++ [Action.settle (RefreshOutcome.fail e)])).callers i =
        CallerState.finished (CallResult.error (CallerError.tokenRefresh refreshFailedMessage (some e)))) ∧
    (∀ i, (run (initSys N c now) (starts.map Action.start)).callers i = CallerState.waitingShared 0 →
      (run (initSys N c now)
        (starts.map Action.start ++ [Action.settle (RefreshOutcome.fail e)])).callers i =
        CallerState.finished (CallResult.error (CallerError.upstream e))) ∧
    (∀ i, i ∈ starts →
      (run (initSys N c now) (starts.map Action.start)).callers i = CallerState.waitingOwn 0 ∨
      (run (initSys N c now) (starts.map Action.start)).callers i = CallerState.waitingShared 0) := by
  have hmid : StartPhase c now (run (initSys N c now) (starts.map Action.start)) :=
    startPhase_main c now rt hA hR starts hne
  obtain ⟨hc, hn, hi, hs0, hr, hcal⟩ := hmid
  have hfull : run (initSys N c now)
      (starts.map Action.start ++ [Action.settle (RefreshOutcome.fail e)]) =
      settleStep (RefreshOutcome.fail e) (run (initSys N c now) (starts.map Action.start)) := by
    unfold run
    rw [List.foldl_append]
    rfl
  refine ⟨?_, ?_, ?_⟩
  · intro i hwi
    rw [hfull, settleStep_callers_of_registered hr _ i, hwi]
    simp [resumeCaller]
  · intro i hwi
    rw [hfull, settleStep_callers_of_registered hr _ i, hwi]
    simp [resumeCaller]
  · intro i hi2
    have hni : (run (initSys N c now) (starts.map Action.start)).callers i ≠ CallerState.idle :=
      run_starts_not_idle i starts (initSys N c now) hi2
    rcases hcal i with h | h | h
    · exact absurd h hni
    · exact Or.inl h
    · exact Or.inr h

/-- C3 amended witness: with two concurrent callers and a failing refresh,
the awaiting caller 1 finishes with the raw upstream network error. -/
theorem claim_C3_amended_witness :
    (run (initSys 2 demoCache 0)
      ([0, 1].map Action.start ++ [Action.settle (RefreshOutcome.fail demoError)])).callers 1 =
      CallerState.finished (CallResult.error (CallerError.upstream demoError)) :=
  (claim_C3_amended 2 demoCache 0 "RT" demoError [0, 1]
    (by decide) (by decide) (by decide)).2.1 1 (by decide)

theorem setTokens_access (c : TMCache) (now : Nat) (tk : TokenResponse) :
    (setTokens c now tk).access = some ⟨tk.access_token, now + tokenTtl tk * 1000⟩ := by
  unfold setTokens
  cases hrt : tk.refresh_token with
  | none => rfl
  | some r =>
      dsimp only
      split
      · rfl
      · rfl

theorem setTokens_access_window (c : TMCache) (now q : Nat) (tk : TokenResponse) :
    getAccessToken (setTokens c now tk) q =
      if q ≤ now + tokenTtl tk * 1000 then some tk.access_token else none := by
  unfold getAccessToken cacheGet
  rw [setTokens_access]

/-- C4: setTokens stores the access token with lifetime
max(expires_in − 300, 60) seconds: a token stored with expires_in = 3600 is
still retrievable 3299 seconds later and no longer retrievable more than 3300
seconds later; expires_in = 120 yields a 60-second lifetime (retrievable at
59 seconds, gone after 60), and the computed lifetime is never below the
60-second floor. -/
theorem claim_C4_token_lifetime (c : TMCache) (now : Nat) (tok : String) :
    (getAccessToken (setTokens c now ⟨tok, "Bearer", some 3600, none, none⟩)
      (now + 3299 * 1000) = some tok) ∧
    (∀ q : Nat, now + 3300 * 1000 < q →
      getAccessToken (setTokens c now ⟨tok, "Bearer", some 3600, none, none⟩) q = none) ∧
    (tokenTtl ⟨tok, "Bearer", some 120, none, none⟩ = 60) ∧
    (getAccessToken (setTokens c now ⟨tok, "Bearer", some 120, none, none⟩)
      (now + 59 * 1000) = some tok) ∧
    (∀ q : Nat, now + 60 * 1000 < q →
      getAccessToken (setTokens c now ⟨tok, "Bearer", some 120, none, none⟩) q = none) ∧
    (∀ tk : TokenResponse, 60 ≤ tokenTtl tk) := by
  have h3600 : tokenTtl ⟨tok, "Bearer", some 3600, none, none⟩ = 3300 := rfl
  have h120 : tokenTtl ⟨tok, "Bearer", some 120, none, none⟩ = 60 := rfl
  refine ⟨?_, ?_, h120, ?_, ?_, ?_⟩
  · rw [setTokens_access_window, h3600, if_pos (by omega)]
  · intro q hq
    rw [setTokens_access_window, h3600, if_neg (by omega)]
  · rw [setTokens_access_window, h120, if_pos (by omega)]
  · intro q hq
    rw [setTokens_access_window, h120, if_neg (by omega)]
  · intro tk
    exact Nat.le_max_right _ 60

/-- C4 witness: with the cache seeded at time 0, the token stored with
expires_in = 3600 is present at 3299 seconds and absent at 3300 seconds plus
one millisecond. -/
theorem claim_C4_token_lifetime_witness :
    getAccessToken (setTokens demoCache 0 ⟨"A1", "Bearer", some 3600, none, none⟩)
      (0 + 3299 * 1000) = some "A1" ∧
    getAccessToken (setTokens demoCache 0 ⟨"A1", "Bearer", some 3600, none, none⟩)
      3300001 = none :=
  ⟨(claim_C4_token_lifetime demoCache 0 "A1").1,
   (claim_C4_token_lifetime demoCache 0 "A1").2.1 3300001 (by decide)⟩

/-- C5 counterexample: the failure thrown when no refresh token is present is
an instance of the same error class TokenRefreshError — code
"TOKEN_REFRESH_ERROR" — as the failure thrown when a refresh call fails, so
it is not an error kind distinct from the refresh-failure kind; the two
differ only in message and wrapped cause. -/
theorem claim_C5_counterexample :
    (run (initSys 1 ⟨none, none⟩ 0) [Action.start 0]).callers 0 =
      CallerState.finished (CallResult.error (CallerError.tokenRefresh noRefreshTokenMessage none)) ∧
    (run (initSys 2 demoCache 0)
      [Action.start 0, Action.start 1, Action.settle (RefreshOutcome.fail demoError)]).callers 0 =
      CallerState.finished (CallResult.error (CallerError.tokenRefresh refreshFailedMessage (some demoError))) ∧
    CallerError.codeOf (CallerError.tokenRefresh noRefreshTokenMessage none) =
      CallerError.codeOf (CallerError.tokenRefresh refreshFailedMessage (some demoError)) := by
  refine ⟨?_, ?_, ?_⟩ <;> decide

/-- C5 (amended): with no access token cached and no refresh token present,
getValidAccessToken fails without making any network call and without
touching the cache, throwing a TokenRefreshError with the
no-refresh-token message and no wrapped cause — the same error class (code
"TOKEN_REFRESH_ERROR") that refresh failures use, not a distinct kind. -/
theorem claim_C5_amended (N : Nat) (s : Sys N) (i : Fin N)
    (h0 : s.callers i = CallerState.idle)
    (hA : getAccessToken s.cache s.now = none)
    (hr : s.refreshPromise = none)
    (hRT : getRefreshToken s.cache s.now = none) :
    (step (Action.start i) s).callers i =
      CallerState.finished (CallResult.error (CallerError.tokenRefresh noRefreshTokenMessage none)) ∧
    (step (Action.start i) s).invocations = s.invocations ∧
    (step (Action.start i) s).cache = s.cache ∧
    CallerError.codeOf (CallerError.tokenRefresh noRefreshTokenMessage none) =
      "TOKEN_REFRESH_ERROR" := by
  have hstep : step (Action.start i) s =
      { s with callers := Function.update s.callers i (CallerState.finished (CallResult.error (CallerError.tokenRefresh noRefreshTokenMessage none))) } :=
    startStep_noRefresh h0 hA hr hRT
  rw [hstep]
  refine ⟨?_, rfl, rfl, rfl⟩
  dsimp only
  rw [Function.update_same]

/-- C5 amended witness: a single caller against an empty cache finishes with
the no-refresh-token TokenRefreshError and zero upstream invocations. -/
theorem claim_C5_amended_witness :
    (step (Action.start 0) (initSys 1 ⟨none, none⟩ 0)).callers 0 =
      CallerState.finished (CallResult.error (CallerError.tokenRefresh noRefreshTokenMessage none)) ∧
    (step (Action.start 0) (initSys 1 ⟨none, none⟩ 0)).invocations =
      (initSys 1 ⟨none, none⟩ 0).invocations :=
  ⟨(claim_C5_amended 1 (initSys 1 ⟨none, none⟩ 0) 0 (by decide) (by decide) (by decide) (by decide)).1,
   (claim_C5_amended 1 (initSys 1 ⟨none, none⟩ 0) 0 (by decide) (by decide) (by decide) (by decide)).2.1⟩

/-- C6 counterexample: a token response that includes the refresh_token field
with the (falsy) empty-string value does not replace the stored refresh
token: with "OLD" stored, setTokens with refresh_token = "" leaves "OLD" in
place instead of storing "". -/
theorem claim_C6_counterexample :
    getRefreshToken (setTokens ⟨none, some ⟨"OLD", 1000000000⟩⟩ 0
      ⟨"A", "Bearer", some 3600, some "", none⟩) 0 = some "OLD" ∧
    (some "OLD" : Option String) ≠ some "" := by
  constructor <;> decide

/-- C6 (amended): setTokens always overwrites the stored access token; a
token response carrying a non-empty refresh_token replaces the stored refresh
token, while a response that omits refresh_token — or carries the falsy empty
string — leaves the previously stored refresh token unchanged. -/
theorem claim_C6_amended (c : TMCache) (now : Nat) (tk : TokenResponse) :
    ((setTokens c now tk).access = some ⟨tk.access_token, now + tokenTtl tk * 1000⟩) ∧
    (tk.refresh_token = none → (setTokens c now tk).refresh = c.refresh) ∧
    (tk.refresh_token = some "" → (setTokens c now tk).refresh = c.refresh) ∧
    (∀ r : String, tk.refresh_token = some r → r ≠ "" →
      (setTokens c now tk).refresh = some ⟨r, now + refreshTokenTtl * 1000⟩) := by
  refine ⟨?_, ?_, ?_, ?_⟩
  · unfold setTokens
    cases hrt : tk.refresh_token with
    | none => rfl
    | some r =>
        dsimp only
        split
        · rfl
        · rfl
  · intro h
    unfold setTokens
    rw [h]
  · intro h
    unfold setTokens
    rw [h]
    rfl
  · intro r h hne
    unfold setTokens
    rw [h]
    dsimp only
    rw [if_neg hne]

/-- C6 amended witness: with "OLD" stored, a response carrying refresh_token
"NEW" replaces it, and a response omitting the field keeps "OLD". -/
theorem claim_C6_amended_witness :
    (setTokens ⟨none, some ⟨"OLD", 5⟩⟩ 0 ⟨"A", "Bearer", some 3600, some "NEW", none⟩).refresh =
      some ⟨"NEW", 0 + refreshTokenTtl * 1000⟩ ∧
    (setTokens ⟨none, some ⟨"OLD", 5⟩⟩ 0 ⟨"A", "Bearer", some 3600, none, none⟩).refresh =
      some ⟨"OLD", 5⟩ :=
  ⟨(claim_C6_amended ⟨none, some ⟨"OLD", 5⟩⟩ 0 ⟨"A", "Bearer", some 3600, some "NEW", none⟩).2.2.2
      "NEW" rfl (by decide),
   (claim_C6_amended ⟨none, some ⟨"OLD", 5⟩⟩ 0 ⟨"A", "Bearer", some 3600, none, none⟩).2.1 rfl⟩

/-- C7 counterexample: setTokens stores `tokens.access_token` unconditionally
(tokenManager.ts line 191), so an empty-string access token can be cached,
and getAccessToken then reports it as present (some ""). Yet
getValidAccessToken does not return this live cached token immediately: the
truthiness check at line 231 treats "" as absent, and the call falls through
to the refresh path and makes an upstream refresh invocation. -/
theorem claim_C7_counterexample :
    getAccessToken (setTokens ⟨none, some ⟨"RT", 1000000000⟩⟩ 0
      ⟨"", "Bearer", some 3600, none, none⟩) 0 = some "" ∧
    (step (Action.start 0) (initSys 1 (setTokens ⟨none, some ⟨"RT", 1000000000⟩⟩ 0
      ⟨"", "Bearer", some 3600, none, none⟩) 0)).callers 0 ≠
      CallerState.finished (CallResult.ok "") ∧
    (step (Action.start 0) (initSys 1 (setTokens ⟨none, some ⟨"RT", 1000000000⟩⟩ 0
      ⟨"", "Bearer", some 3600, none, none⟩) 0)).invocations = 1 := by
  refine ⟨?_, ?_, ?_⟩ <;> decide

/-- C7 (amended): whenever a live (non-expired) non-empty access token is
cached, getValidAccessToken returns that token immediately: the caller
finishes with the cached token, no upstream invocation is made, and the
cache and the in-flight handle are left unchanged. A cached empty-string
token, being falsy in JS, is instead treated as absent. -/
theorem claim_C7_cache_hit (N : Nat) (s : Sys N) (i : Fin N) (tok : String)
    (h0 : s.callers i = CallerState.idle)
    (hA : getAccessToken s.cache s.now = some tok)
    (hne : tok ≠ "") :
    (step (Action.start i) s).callers i = CallerState.finished (CallResult.ok tok) ∧
    (step (Action.start i) s).cache = s.cache ∧
    (step (Action.start i) s).refreshPromise = s.refreshPromise ∧
    (step (Action.start i) s).invocations = s.invocations := by
  have hstep : step (Action.start i) s =
      { s with callers := Function.update s.callers i (CallerState.finished (CallResult.ok tok)) } :=
    startStep_hit h0 hA hne
  rw [hstep]
  refine ⟨?_, rfl, rfl, rfl⟩
  dsimp only
  rw [Function.update_same]

/-- C7 witness: a caller against a cache holding a live token "A1" finishes
with "A1", no upstream invocation, cache and handle untouched. -/
theorem claim_C7_cache_hit_witness :
    (step (Action.start 0) (initSys 1 ⟨some ⟨"A1", 3300000⟩, none⟩ 0)).callers 0 =
      CallerState.finished (CallResult.ok "A1") ∧
    (step (Action.start 0) (initSys 1 ⟨some ⟨"A1", 3300000⟩, none⟩ 0)).invocations =
      (initSys 1 ⟨some ⟨"A1", 3300000⟩, none⟩ 0).invocations :=
  ⟨(claim_C7_cache_hit 1 (initSys 1 ⟨some ⟨"A1", 3300000⟩, none⟩ 0) 0 "A1"
      (by decide) (by decide) (by decide)).1,
   (claim_C7_cache_hit 1 (initSys 1 ⟨some ⟨"A1", 3300000⟩, none⟩ 0) 0 "A1"
      (by decide) (by decide) (by decide)).2.2.2⟩

/-- C8 counterexample: a request answered by two consecutive 429 responses
and then a success is dispatched three times and completes successfully,
waiting the default 60 seconds before each re-dispatch — the second
consecutive 429 is retried again rather than surfaced as an error. -/
theorem claim_C8_counterexample :
    dispatchWithRetry
      [HttpResponse.rateLimited none, HttpResponse.rateLimited none, HttpResponse.success "ok"] =
      (DispatchResult.success "ok", 3, [60, 60]) ∧
    (DispatchResult.success "ok" ≠ DispatchResult.apiError 429) := by
  constructor <;> decide

/-- C8 (amended): on every HTTP 429 response the client waits the
server-specified retry-after interval (or the 60-second default when the
header is absent) and re-dispatches the same request; the retry is unbounded,
so k consecutive 429 responses followed by a success yield k + 1 dispatches,
k waits, and a successful outcome, never a surfaced rate-limit error. -/
theorem claim_C8_amended (k : Nat) (d : String) (h : Option Nat) :
    dispatchWithRetry
      (List.replicate k (HttpResponse.rateLimited h) ++ [HttpResponse.success d]) =
      (DispatchResult.success d, k + 1, List.replicate k (h.getD defaultRetryAfter)) := by
  induction k with
  | zero => rfl
  | succ n ih =>
      have hcons : List.replicate (n + 1) (HttpResponse.rateLimited h) ++ [HttpResponse.success d] =
          HttpResponse.rateLimited h ::
            (List.replicate n (HttpResponse.rateLimited h) ++ [HttpResponse.success d]) := rfl
      rw [hcons]
      simp only [dispatchWithRetry]
      rw [ih]
      rfl

theorem startStepRefresh_cache {N : Nat} (i : Fin N) (s : Sys N) :
    (startStepRefresh i s).cache = s.cache := by
  unfold startStepRefresh
  split
  · rfl
  · split
    · rfl
    · rfl

theorem startStep_cache {N : Nat} (i : Fin N) (s : Sys N) :
    (startStep i s).cache = s.cache := by
  unfold startStep
  split
  · rfl
  · split
    · split
      · exact startStepRefresh_cache i s
      · rfl
    · exact startStepRefresh_cache i s

/-- C9: an execution consisting only of calls entering getValidAccessToken
and of refresh settlements that fail leaves the cached credential entry
exactly as it was — setTokens runs only on the success path, so neither the
stored access token nor the stored refresh token is modified when a refresh
fails. -/
theorem claim_C9_error_path_preserves_cache (N : Nat) (sched : List (Action N)) (s : Sys N)
    (h : ∀ a ∈ sched, (∃ i, a = Action.start i) ∨
      ∃ e, a = Action.settle (RefreshOutcome.fail e)) :
    (run s sched).cache = s.cache := by
  induction sched generalizing s with
  | nil => rfl
  | cons a t ih =>
      have hstep : (step a s).cache = s.cache := by
        rcases h a (List.mem_cons_self a t) with ⟨i, rfl⟩ | ⟨e, rfl⟩
        · exact startStep_cache i s
        · exact settleStep_cache_fail e s
      have htail : (run (step a s) t).cache = (step a s).cache :=
        ih (step a s) (fun b hb => h b (List.mem_cons_of_mem a hb))
      exact htail.trans hstep

/-- C9 witness: a caller whose refresh fails leaves the demo cache exactly as
it was before the call. -/
theorem claim_C9_error_path_preserves_cache_witness :
    (run (initSys 1 demoCache 0)
      [Action.start 0, Action.settle (RefreshOutcome.fail demoError)]).cache = demoCache :=
  claim_C9_error_path_preserves_cache 1
    [Action.start 0, Action.settle (RefreshOutcome.fail demoError)] (initSys 1 demoCache 0)
    (by
      intro a ha
      simp only [List.mem_cons, List.not_mem_nil, or_false] at ha
      rcases ha with rfl | rfl
      · exact Or.inl ⟨0, rfl⟩
      · exact Or.inr ⟨demoError, rfl⟩)

/-- C10 counterexample: an environment that supplies the access token as the
(falsy) empty string stores nothing — initializeFromEnv leaves the cache
empty instead of storing the supplied token with the 3600-second default. -/
theorem claim_C10_counterexample :
    initializeFromEnv ⟨none, none⟩ 0 (some "") (some "R") = ⟨none, none⟩ ∧
    getAccessToken (initializeFromEnv ⟨none, none⟩ 0 (some "") (some "R")) 0 = none := by
  constructor <;> decide

/-- C10 (amended): initializeFromEnv stores tokens only when the environment
provides a non-empty access token — with no access token, or with the empty
string, nothing is stored and the environment refresh token is discarded;
with a non-empty access token the tokens are stored with a default expires_in
of 3600 seconds, hence a cached lifetime of 3300 seconds. -/
theorem claim_C10_amended (c : TMCache) (now : Nat) (envR : Option String) :
    (initializeFromEnv c now none envR = c) ∧
    (initializeFromEnv c now (some "") envR = c) ∧
    (∀ a : String, a ≠ "" →
      getAccessToken (initializeFromEnv c now (some a) envR) (now + 3299 * 1000) = some a ∧
      (∀ q : Nat, now + 3300 * 1000 < q →
        getAccessToken (initializeFromEnv c now (some a) envR) q = none)) := by
  refine ⟨rfl, rfl, fun a ha => ?_⟩
  have h1 : initializeFromEnv c now (some a) envR =
      setTokens c now ⟨a, "Bearer", some 3600, envR, none⟩ := by
    unfold initializeFromEnv
    dsimp only
    rw [if_neg ha]
  have httl : tokenTtl ⟨a, "Bearer", some 3600, envR, none⟩ = 3300 := rfl
  constructor
  · rw [h1, setTokens_access_window, httl, if_pos (by omega)]
  · intro q hq
    rw [h1, setTokens_access_window, httl, if_neg (by omega)]

/-- C10 amended witness: a non-empty access token "A" from the environment is
stored and retrievable at 3299 seconds but not at 3300.001 seconds. -/
theorem claim_C10_amended_witness :
    getAccessToken (initializeFromEnv ⟨none, none⟩ 0 (some "A") (some "R"))
      (0 + 3299 * 1000) = some "A" ∧
    getAccessToken (initializeFromEnv ⟨none, none⟩ 0 (some "A") (some "R")) 3300001 = none :=
  ⟨((claim_C10_amended ⟨none, none⟩ 0 (some "R")).2.2 "A" (by decide)).1,
   ((claim_C10_amended ⟨none, none⟩ 0 (some "R")).2.2 "A" (by decide)).2 3300001 (by decide)⟩

end TickTickMCP
